import Mathlib

/-!
Verification of the strategy-dispatch scraper (`app.py`) against its
natural-language specification.  The Python source is shallowly embedded:
pure fragments become Lean functions on `List Char` / `String`, the
network/browser environment is passed in explicitly, exceptions become
`Except`, and the FastAPI response surface becomes an `ApiResult` value.
-/

deriving instance DecidableEq for Except

namespace App

/-! ## Generic helpers modelling Python string/number primitives -/

/-- `hasPre pat l` : does `l` start with `pat`?  (list prefix test) -/
def hasPre : List Char → List Char → Bool
  | [], _ => true
  | _ :: _, [] => false
  | p :: ps, c :: cs => (p == c) && hasPre ps cs

/-- `hasSub pat l` : does `pat` occur as a contiguous sublist of `l`?
Models the Python substring test `pat in s`. -/
def hasSub (pat : List Char) : List Char → Bool
  | [] => pat.isEmpty
  | c :: t => hasPre pat (c :: t) || hasSub pat t

/-- Python `pat in s` on strings. -/
def pyIn (pat s : String) : Bool := hasSub pat.toList s.toList

/-- Lowercase a string character by character (Python `str.lower()`;
the hostnames and header values involved are ASCII). -/
def lowerStr (s : String) : String := String.mk (s.toList.map Char.toLower)

/-- Interpret a nonempty all-digit character list as a natural number. -/
def digitsToNat (ds : List Char) : Option Nat :=
  if ds.isEmpty then none
  else if ds.all Char.isDigit then
    some (ds.foldl (fun a c => a * 10 + (c.toNat - '0'.toNat)) 0)
  else none

/-- Python `int(s)` on a decimal string: optional surrounding whitespace,
optional sign, digits; anything else raises `ValueError` (`none` here). -/
def pyInt (s : String) : Option Int :=
  let l := ((s.toList.dropWhile Char.isWhitespace).reverse.dropWhile
      Char.isWhitespace).reverse
  match l with
  | '+' :: ds => (digitsToNat ds).map Int.ofNat
  | '-' :: ds => (digitsToNat ds).map (fun n => -(n : Int))
  | ds => (digitsToNat ds).map Int.ofNat

/-! ## Data model -/

/-- The `{title, qualities, thumbnail}` dictionary returned by every
extractor.  `qualities` is a Python dict, modelled as an insertion-ordered
association list with unique keys. -/
structure ScrapeResult where
  title : String
  qualities : List (String × String)
  thumbnail : Option String := none
deriving Repr, DecidableEq

/-- One network response observed by the interception extractor:
its URL, the `content-type` header (already defaulted to `""` when absent,
as `headers.get("content-type", "")` does) and the raw `content-length`
header when present. -/
structure NetResponse where
  url : String
  contentType : String
  contentLength : Option String
deriving Repr, DecidableEq

/-- A stored media candidate: `{"url": ..., "size": ...}`. -/
structure Candidate where
  url : String
  size : Int
deriving Repr, DecidableEq

/-! ## The interception observer (`handle_response`, app.py lines 130-144) -/

/-- The candidate test of `handle_response`:
`is_video_url or is_video_type` with
`is_video_url = any(ext in response.url for ext in [".mp4", ".m3u8", ".webm"])` and
`is_video_type = "video" in ct or "mpegurl" in ct or "binary/octet-stream" in ct`
where `ct = response.headers.get("content-type", "").lower()`. -/
def isCandidate (r : NetResponse) : Bool :=
  let ct := lowerStr r.contentType
  (pyIn ".mp4" r.url || pyIn ".m3u8" r.url || pyIn ".webm" r.url)
    || (pyIn "video" ct || pyIn "mpegurl" ct || pyIn "binary/octet-stream" ct)

/-- `int(response.headers.get("content-length", 0))`: an absent header
gives the integer `0` directly; a present header is parsed by `int` and a
parse failure raises `ValueError` (`none` here, swallowed by the caller). -/
def declaredSize (r : NetResponse) : Option Int :=
  match r.contentLength with
  | none => some 0
  | some s => pyInt s

/-- One step of the observer: append the response to `video_requests`
iff it is a candidate whose declared size parses and exceeds 100000. -/
def handle_response (acc : List Candidate) (r : NetResponse) : List Candidate :=
  if isCandidate r then
    match declaredSize r with
    | some size => if size > 100000 then acc ++ [⟨r.url, size⟩] else acc
    | none => acc
  else acc

/-- The `video_requests` list accumulated over a whole session. -/
def captureResponses (rs : List NetResponse) : List Candidate :=
  rs.foldl handle_response []

/-! ## Ranking and labelling (app.py lines 178-188) -/

/-- Insert a candidate into a descending-by-size list, after all elements
of greater or equal size.  Folding this over the capture list yields
exactly Python's stable `sort(key=size, reverse=True)`. -/
def insertDesc (c : Candidate) : List Candidate → List Candidate
  | [] => [c]
  | x :: xs => if c.size > x.size then c :: x :: xs else x :: insertDesc c xs

/-- `video_requests.sort(key=lambda x: x["size"], reverse=True)`:
the stable descending sort by declared size. -/
def sortDescBySize (l : List Candidate) : List Candidate :=
  l.foldl (fun acc c => insertDesc c acc) []

/-- Assignment `qualities[label] = url` on a Python dict: an existing key
keeps its position and gets the new value, a new key is appended. -/
def dictSet (d : List (String × String)) (k v : String) : List (String × String) :=
  if (d.lookup k).isSome then d.map (fun kv => if kv.1 = k then (k, v) else kv)
  else d ++ [(k, v)]

/-- `label = f"Quality {i+1}"; if ".m3u8" in url: label = "HLS Playlist"`. -/
def labelFor (i : Nat) (url : String) : String :=
  if pyIn ".m3u8" url then "HLS Playlist" else "Quality " ++ toString (i + 1)

/-- The labelling loop
`for i, video in enumerate(video_requests[:3]): qualities[label] = video["url"]`,
starting at index `i` with dict `d`. -/
def assignLabels : Nat → List (String × String) → List Candidate → List (String × String)
  | _, d, [] => d
  | i, d, c :: cs => assignLabels (i + 1) (dictSet d (labelFor i c.url) c.url) cs

/-- Sort descending, truncate to the top 3, and label. -/
def rankCandidates (vrs : List Candidate) : List (String × String) :=
  assignLabels 0 [] ((sortDescBySize vrs).take 3)

/-- The qualities mapping the interception extractor produces from the
responses observed during one session. -/
def playwrightQualities (rs : List NetResponse) : List (String × String) :=
  rankCandidates (captureResponses rs)

/-- The last selected candidate whose URL contains the playlist marker:
the overwrite-semantics winner of the `"HLS Playlist"` dict key. -/
def lastM3u8 : List Candidate → Option Candidate
  | [] => none
  | c :: cs =>
    match lastM3u8 cs with
    | some c' => some c'
    | none => if pyIn ".m3u8" c.url then some c else none

/-! ## The static extractors (app.py lines 60-109)

Python's `re.search` is used with patterns of the single shape
`P(.+?)S`: a literal-with-wildcards part `P`, one lazy nonempty group
(default mode, so `.` never matches a newline), and a literal tail `S`.
We embed exactly that shape: leftmost match start wins, and at that
start the group is the shortest nonempty newline-free stretch followed
by `S`. -/

/-- One regex atom of the fixed part: a literal character or the
metacharacter `.` (any character except newline). -/
inductive PatAtom where
  | lit (c : Char)
  | anyChar
deriving Repr, DecidableEq

/-- Literal atoms of a string. -/
def lits (s : String) : List PatAtom := s.toList.map PatAtom.lit

/-- Match the fixed atoms against the front of the text, returning the
remainder on success. -/
def matchAtoms : List PatAtom → List Char → Option (List Char)
  | [], rest => some rest
  | _ :: _, [] => none
  | .lit c :: ps, x :: rest => if x = c then matchAtoms ps rest else none
  | .anyChar :: ps, x :: rest => if x = '\n' then none else matchAtoms ps rest

/-- The lazy group `(.+?)` followed by the literal tail `suf`: consume
characters one at a time (never a newline) and stop at the first point
where `suf` matches; `acc` holds the group consumed so far. -/
def lazyGroup (suf : List Char) (acc : List Char) : List Char → Option (List Char)
  | [] => none
  | c :: rest =>
    if c = '\n' then none
    else if hasPre suf rest then some (acc ++ [c])
    else lazyGroup suf (acc ++ [c]) rest

/-- `re.search(P(.+?)S, hay).group(1)`: try each start position left to
right; at the first position where the whole pattern matches, return the
(lazy, hence shortest) group. -/
def reSearch (pat : List PatAtom) (suf : List Char) : List Char → Option (List Char)
  | [] => none
  | c :: t =>
    match matchAtoms pat (c :: t) with
    | some rest =>
      match lazyGroup suf [] rest with
      | some g => some g
      | none => reSearch pat suf t
    | none => reSearch pat suf t

/-- String-level wrapper for `re.search` with group extraction. -/
def pySearchGroup (pat : List PatAtom) (suf : String) (hay : String) : Option String :=
  (reSearch pat suf.toList hay.toList).map String.mk

/-- `html5player.setVideoTitle\('(.+?)'\);` — the unescaped `.` after
`html5player` is a wildcard. -/
def xvTitlePat : List PatAtom :=
  lits "html5player" ++ [PatAtom.anyChar] ++ lits "setVideoTitle('"

/-- `html5player.setVideoUrlPoster\('(.+?)'\);` -/
def xvThumbPat : List PatAtom :=
  lits "html5player" ++ [PatAtom.anyChar] ++ lits "setVideoUrlPoster('"

/-- `html5player.setVideoHLS\('(.+?)'\);` -/
def xvHlsPat : List PatAtom :=
  lits "html5player" ++ [PatAtom.anyChar] ++ lits "setVideoHLS('"

/-- `<script type="application/ld\+json">(.+?)</script>` -/
def xhJsonPat : List PatAtom := lits "<script type=\"application/ld+json\">"

/-- `scrape_xvideos_direct` (lines 60-84), applied to the fetched page
body (the HTTP GET itself is the external collaborator).  Every pattern
is optional; the title falls back to `"Untitled Video"`, the thumbnail
and playlist URL to `""`, and an empty playlist URL yields an empty
qualities dict. -/
def scrape_xvideos_direct (html : String) : ScrapeResult :=
  let title := (pySearchGroup xvTitlePat "');" html).getD "Untitled Video"
  let thumbnail := (pySearchGroup xvThumbPat "');" html).getD ""
  let m3u8_url := (pySearchGroup xvHlsPat "');" html).getD ""
  let qualities := if m3u8_url ≠ "" then [("HLS Playlist", m3u8_url)] else []
  ⟨title, qualities, some thumbnail⟩

/-- `scrape_xhamster_direct` (lines 86-109), applied to the fetched page
body.  `json.loads` is the Python standard library, passed in as `loads`
(returning the parsed top-level object as a string-valued association
list, or an error when it raises).  An absent JSON-LD block raises
`ValueError("Could not find video JSON-LD data in the page.")`;
`data.get(key, default)` supplies the field fallbacks. -/
def scrape_xhamster_direct (html : String)
    (loads : String → Except String (List (String × String))) :
    Except String ScrapeResult :=
  match pySearchGroup xhJsonPat "</script>" html with
  | none => .error "Could not find video JSON-LD data in the page."
  | some g =>
    match loads g with
    | .error e => .error e
    | .ok data =>
      let title := (data.lookup "name").getD "Untitled"
      let thumbnail := (data.lookup "thumbnailUrl").getD ""
      let m3u8_url := (data.lookup "contentUrl").getD ""
      let qualities := if m3u8_url ≠ "" then [("HLS Playlist", m3u8_url)] else []
      .ok ⟨title, qualities, some thumbnail⟩

/-! ## URL parsing and the dispatch boundary (app.py lines 198-245)

`urlparse(url).netloc` follows CPython `urllib.parse.urlsplit`: strip
outer control/space characters, remove tab/CR/LF, split off a scheme
(`letter (letter|digit|+|-|.)* :`), and when the remainder starts with
`//` take the authority up to the first `/`, `?` or `#`.  A netloc with
an unmatched square bracket raises `ValueError("Invalid IPv6 URL")` —
the only exception `urlparse` raises on these inputs. -/

/-- Characters allowed in a URL scheme after the initial letter. -/
def schemeChar (c : Char) : Bool :=
  c.isAlpha || c.isDigit || c = '+' || c = '-' || c = '.'

/-- Remove a leading `scheme:` if present. -/
def dropScheme (l : List Char) : List Char :=
  match l.findIdx? (fun c => c = ':') with
  | none => l
  | some i =>
    match l with
    | [] => l
    | c :: _ =>
      if 0 < i && c.isAlpha && (l.take i).all schemeChar then l.drop (i + 1)
      else l

/-- The WHATWG-style pre-cleaning `urlsplit` performs: strip leading and
trailing C0-control/space characters, then delete every tab, CR and LF. -/
def pyUrlClean (url : String) : List Char :=
  (((url.toList.dropWhile (fun c => c.toNat ≤ 32)).reverse.dropWhile
      (fun c => c.toNat ≤ 32)).reverse).filter
    (fun c => c ≠ '\t' && c ≠ '\n' && c ≠ '\r')

/-- `urlparse(url).netloc`, including the unmatched-bracket `ValueError`. -/
def pyNetloc (url : String) : Except String String :=
  let l := dropScheme (pyUrlClean url)
  if hasPre ['/', '/'] l then
    let nl := (l.drop 2).takeWhile (fun c => c ≠ '/' && c ≠ '?' && c ≠ '#')
    if (nl.contains '[' && !nl.contains ']')
        || (nl.contains ']' && !nl.contains '[') then
      .error "Invalid IPv6 URL"
    else .ok (String.mk nl)
  else .ok ""

/-- `netloc.replace("www.", "")` specialised to its literal argument:
left-to-right removal of every non-overlapping occurrence of `www.`. -/
def removeWWW : List Char → List Char
  | 'w' :: 'w' :: 'w' :: '.' :: rest => removeWWW rest
  | c :: rest => c :: removeWWW rest
  | [] => []

/-- `urlparse(url).netloc.replace("www.", "")` with the surrounding
`try/except` (line 221-224): a parser exception becomes the 400 error. -/
def scrape_domain (url : String) : Except String String :=
  (pyNetloc url).map (fun n => String.mk (removeWWW n.toList))

/-- The strategy registry (lines 198-206).  The Python dict literal maps
each host to a *name*; `scrape_mixkit_direct` is bound to a name that no
definition in the module provides, so the registry is embedded at the
name level. -/
def STRATEGY_MAP : List (String × String) :=
  [("mixkit.co", "scrape_mixkit_direct"),
   ("xvideos.com", "advanced_playwright_scraper"),
   ("pixabay.com", "advanced_playwright_scraper"),
   ("xhamster.com", "scrape_xhamster_direct")]

/-- The functions `app.py` actually defines at module level. -/
def definedExtractors : List String :=
  ["get_browser", "scrape_xvideos_direct", "scrape_xhamster_direct",
   "advanced_playwright_scraper", "scrape_manager"]

/-- A response of the `/scrape` endpoint: a JSON body or an
`HTTPException` with status code and detail string. -/
inductive ApiResult where
  | ok (r : ScrapeResult)
  | err (status : Nat) (detail : String)
deriving Repr, DecidableEq

/-- An apostrophe, spelled via its code point. -/
def sq : String := String.singleton (Char.ofNat 39)

/-- `scrape_manager` (lines 215-245).  `runExtractor name url` stands for
invoking the named strategy (awaited when async); its `Except` is the
exception it may raise.  Note the `if not result.get("qualities")`
rejection raises `HTTPException(404, ...)` *inside* the `try` whose
`except Exception as e` re-raises `HTTPException(500, str(e))`; FastAPI's
`HTTPException` is an `Exception` and `str(e)` is `f"{status}: {detail}"`,
so the empty-qualities rejection reaches the client as a 500. -/
def scrape_manager (url : String)
    (runExtractor : String → String → Except String ScrapeResult) : ApiResult :=
  match scrape_domain url with
  | .error _ => .err 400 "Invalid URL format."
  | .ok domain =>
    match STRATEGY_MAP.lookup domain with
    | none => .err 404 ("Website " ++ sq ++ domain ++ sq ++ " is not supported yet.")
    | some fname =>
      match runExtractor fname url with
      | .error e => .err 500 e
      | .ok r =>
        if r.qualities.isEmpty then
          .err 500 "404: Scraping finished, but no quality links were found."
        else .ok r

/-- A sound sufficient condition for the spec's "malformed input URL":
after `urlsplit`'s own pre-cleaning the string still contains a space,
which RFC 3986 forbids anywhere in a URL. -/
def malformedUrl (url : String) : Bool := (pyUrlClean url).contains ' '

/-! ## The interception extractor's control flow (app.py lines 117-188)

The browser is the external collaborator; one session's behaviour is an
environment value: whether `page.goto` raises, the page title, the
outcome of each interaction-heuristic click, and the responses the
observer sees.  Exceptions are `Except`, and the `finally` block's
`page.close()` / `context.close()` calls are counted in a trace. -/

/-- Close-call counters for the per-request page and context. -/
structure Trace where
  pageCloses : Nat := 0
  contextCloses : Nat := 0
deriving Repr, DecidableEq

/-- One session's environment. -/
structure PWEnv where
  gotoResult : Except String Unit
  pageTitle : String
  clickResults : List Bool
  responses : List NetResponse

/-- `try ... finally ...`: run the body, then always run the finaliser,
and propagate the body's outcome. -/
def tryFin (body : Trace → Except String α × Trace) (fin : Trace → Trace)
    (t : Trace) : Except String α × Trace :=
  let (r, t') := body t
  (r, fin t')

/-- `await page.close()`. -/
def closePage (t : Trace) : Trace := { t with pageCloses := t.pageCloses + 1 }

/-- `await context.close()`. -/
def closeContext (t : Trace) : Trace := { t with contextCloses := t.contextCloses + 1 }

/-- The interaction heuristic (lines 160-166): try each selector, swallow
any click exception, stop at the first success.  Returns the index
clicked, if any; it never raises. -/
def clickLoop : List Bool → Option Nat
  | [] => none
  | true :: _ => some 0
  | false :: rest => (clickLoop rest).map (· + 1)

/-- `advanced_playwright_scraper` (lines 117-188): page and context are
created, the observer is registered, then
`try: goto; title; click loop; wait finally: close page; close context`,
after which an empty capture list returns `{title, qualities: {}}` and a
nonempty one returns the ranked qualities. -/
def advanced_playwright_scraper (env : PWEnv) : Except String ScrapeResult × Trace :=
  let body : Trace → Except String String × Trace := fun t =>
    match env.gotoResult with
    | .error e => (.error e, t)
    | .ok _ =>
      let _ := clickLoop env.clickResults
      (.ok env.pageTitle, t)
  let (r, t) := tryFin body (fun t => closeContext (closePage t)) {}
  match r with
  | .error e => (.error e, t)
  | .ok title =>
    let vrs := captureResponses env.responses
    if vrs.isEmpty then (.ok ⟨title, [], none⟩, t)
    else (.ok ⟨title, rankCandidates vrs, none⟩, t)

/-! ## The shared engine handle (`get_browser`, app.py lines 36-48)

Cooperative (async) concurrency: each `await` is a suspension point at
which another task may run.  `get_browser` has three atomic segments:
(1) read the globals and test `browser is None or not browser.is_connected()`,
then call `async_playwright().start()` and suspend;
(2) on resume, bind `playwright_instance` and call `firefox.launch()`
— one engine launch — and suspend;
(3) on resume, assign the global `browser` and return it.
There is no lock around any of this. -/

/-- The module-level globals plus an engine-launch counter. -/
structure EngineState where
  browser : Option Nat := none
  launches : Nat := 0
  nextId : Nat := 0
deriving Repr, DecidableEq

/-- Where one `get_browser()` call currently is. -/
inductive GBPhase where
  | entry
  | startedPW
  | launching
  | done (ret : Option Nat)
deriving Repr, DecidableEq

/-- Launched engines stay connected in the cold-start scenario. -/
def is_connected (_ : Nat) : Bool := true

/-- One atomic segment of `get_browser`. -/
def get_browser_step : GBPhase → EngineState → GBPhase × EngineState
  | .entry, s =>
    match s.browser with
    | none => (.startedPW, s)
    | some b => if is_connected b then (.done (some b), s) else (.startedPW, s)
  | .startedPW, s => (.launching, { s with launches := s.launches + 1 })
  | .launching, s =>
    (.done (some s.nextId), { s with browser := some s.nextId, nextId := s.nextId + 1 })
  | .done r, s => (.done r, s)

/-- Run two concurrent `get_browser()` calls under a schedule: `true`
steps the first call, `false` the second; a finished call ignores steps. -/
def runSched : List Bool → GBPhase × GBPhase × EngineState → GBPhase × GBPhase × EngineState
  | [], st => st
  | b :: rest, (pA, pB, s) =>
    if b then
      let (pA', s') := get_browser_step pA s
      runSched rest (pA', pB, s')
    else
      let (pB', s') := get_browser_step pB s
      runSched rest (pA, pB', s')

/-! ## Claim-side definitions (formalising the spec's words, for
comparison against the embedded code) -/

/-- The spec's site identity: the hostname lowercased, with exactly one
leading `www.` removed (written from the spec sentence, not the code;
the URLs compared carry no userinfo, port or brackets, so hostname and
netloc coincide). -/
def claim_site_identity (url : String) : Except String String :=
  (pyNetloc url).map (fun n =>
    let low := lowerStr n
    if hasPre "www.".toList low.toList then String.mk (low.toList.drop 4) else low)

/-- The spec's three-candidate scenario: declared sizes 50000, 150000 and
500000 bytes, the first below threshold. -/
def c4Scenario : List NetResponse :=
  [⟨"https://cdn.example/small.mp4", "video/mp4", some "50000"⟩,
   ⟨"https://cdn.example/mid.mp4", "video/mp4", some "150000"⟩,
   ⟨"https://cdn.example/big.mp4", "video/mp4", some "500000"⟩]

/-- Two above-threshold playlist candidates: both URLs contain `.m3u8`,
so both selected candidates map to the same `"HLS Playlist"` label. -/
def c5Responses : List NetResponse :=
  [⟨"https://cdn.example/alpha.m3u8", "application/vnd.apple.mpegurl", some "500000"⟩,
   ⟨"https://cdn.example/beta.m3u8", "application/vnd.apple.mpegurl", some "200000"⟩]

/-! ## Helper lemmas -/

theorem mem_handle_response {acc : List Candidate} {r : NetResponse} {c : Candidate}
    (h : c ∈ handle_response acc r) : c ∈ acc ∨ 100000 < c.size := by
  unfold handle_response at h
  split at h
  · split at h
    next size hsz =>
      split at h
      next hgt =>
        rcases List.mem_append.mp h with h' | h'
        · exact Or.inl h'
        · simp only [List.mem_singleton] at h'
          subst h'
          exact Or.inr hgt
      next => exact Or.inl h
    next => exact Or.inl h
  · exact Or.inl h

theorem mem_foldl_handle_response (rs : List NetResponse) :
    ∀ (acc : List Candidate) (c : Candidate),
      c ∈ rs.foldl handle_response acc → c ∈ acc ∨ 100000 < c.size := by
  induction rs with
  | nil => intro acc c h; exact Or.inl h
  | cons r rs ih =>
    intro acc c h
    rcases ih (handle_response acc r) c h with h' | h'
    · exact mem_handle_response h'
    · exact Or.inr h'

theorem captureResponses_size {rs : List NetResponse} {c : Candidate}
    (h : c ∈ captureResponses rs) : 100000 < c.size := by
  rcases mem_foldl_handle_response rs [] c h with h' | h'
  · simp at h'
  · exact h'

theorem mem_insertDesc {c x : Candidate} {l : List Candidate} :
    x ∈ insertDesc c l ↔ x = c ∨ x ∈ l := by
  induction l with
  | nil => simp [insertDesc]
  | cons y ys ih =>
    unfold insertDesc
    split
    · simp [or_comm, or_assoc, or_left_comm]
    · simp [ih]
      tauto

theorem mem_foldl_insertDesc (l : List Candidate) :
    ∀ (acc : List Candidate) (x : Candidate),
      x ∈ l.foldl (fun a c => insertDesc c a) acc → x ∈ acc ∨ x ∈ l := by
  induction l with
  | nil => intro acc x h; exact Or.inl h
  | cons c cs ih =>
    intro acc x h
    rcases ih (insertDesc c acc) x h with h' | h'
    · rcases mem_insertDesc.mp h' with h'' | h''
      · subst h''; simp
      · exact Or.inl h''
    · simp [h']

theorem mem_sortDescBySize {l : List Candidate} {x : Candidate}
    (h : x ∈ sortDescBySize l) : x ∈ l := by
  rcases mem_foldl_insertDesc l [] x h with h' | h'
  · simp at h'
  · exact h'

theorem pairwise_insertDesc {c : Candidate} {l : List Candidate}
    (h : l.Pairwise (fun a b => b.size ≤ a.size)) :
    (insertDesc c l).Pairwise (fun a b => b.size ≤ a.size) := by
  induction l with
  | nil => simp [insertDesc]
  | cons x xs ih =>
    rw [List.pairwise_cons] at h
    obtain ⟨hx, hxs⟩ := h
    unfold insertDesc
    split
    next hcx =>
      refine List.pairwise_cons.mpr ⟨?_, List.pairwise_cons.mpr ⟨hx, hxs⟩⟩
      intro y hy
      rcases List.mem_cons.mp hy with rfl | hy'
      · omega
      · exact (hx y hy').trans (by omega)
    next hcx =>
      refine List.pairwise_cons.mpr ⟨?_, ih hxs⟩
      intro y hy
      rcases mem_insertDesc.mp hy with rfl | hy'
      · omega
      · exact hx y hy'

theorem pairwise_foldl_insertDesc (l : List Candidate) :
    ∀ acc : List Candidate, acc.Pairwise (fun a b => b.size ≤ a.size) →
      (l.foldl (fun a c => insertDesc c a) acc).Pairwise (fun a b => b.size ≤ a.size) := by
  induction l with
  | nil => intro acc h; exact h
  | cons c cs ih => intro acc h; exact ih _ (pairwise_insertDesc h)

theorem pairwise_sortDescBySize (l : List Candidate) :
    (sortDescBySize l).Pairwise (fun a b => b.size ≤ a.size) :=
  pairwise_foldl_insertDesc l [] (by simp)

theorem length_dictSet (d : List (String × String)) (k v : String) :
    (dictSet d k v).length ≤ d.length + 1 := by
  unfold dictSet
  split
  · simp
  · simp

theorem length_assignLabels (l : List Candidate) :
    ∀ (i : Nat) (d : List (String × String)),
      (assignLabels i d l).length ≤ d.length + l.length := by
  induction l with
  | nil => intro i d; simp [assignLabels]
  | cons c cs ih =>
    intro i d
    calc (assignLabels i d (c :: cs)).length
        = (assignLabels (i + 1) (dictSet d (labelFor i c.url) c.url) cs).length := rfl
      _ ≤ (dictSet d (labelFor i c.url) c.url).length + cs.length := ih _ _
      _ ≤ d.length + 1 + cs.length := by
          have := length_dictSet d (labelFor i c.url) c.url
          omega
      _ = d.length + (c :: cs).length := by simp; omega

theorem mem_dictSet {d : List (String × String)} {k v : String} {p : String × String}
    (h : p ∈ dictSet d k v) : p ∈ d ∨ p = (k, v) := by
  unfold dictSet at h
  split at h
  · rcases List.mem_map.mp h with ⟨q, hq, hfq⟩
    by_cases hqk : q.1 = k
    · right; simp [hqk] at hfq; exact hfq.symm
    · left; simp [hqk] at hfq; exact hfq ▸ hq
  · rcases List.mem_append.mp h with h' | h'
    · exact Or.inl h'
    · simp only [List.mem_singleton] at h'
      exact Or.inr h'

theorem lookup_cons_self (a b : String) (t : List (String × String)) :
    ((a, b) :: t).lookup a = some b := by
  simp [List.lookup]

theorem lookup_cons_ne {k a : String} (b : String) (t : List (String × String))
    (h : k ≠ a) : ((a, b) :: t).lookup k = t.lookup k := by
  simp [List.lookup, beq_false_of_ne h]

theorem lookup_map_update_self (k v : String) :
    ∀ t : List (String × String), (t.lookup k).isSome →
      (t.map (fun kv => if kv.1 = k then (k, v) else kv)).lookup k = some v := by
  intro t
  induction t with
  | nil => intro hs; simp at hs
  | cons q t ih =>
    obtain ⟨a, b⟩ := q
    intro hs
    by_cases hak : a = k
    · subst hak
      rw [List.map_cons]
      rw [show (if ((a, b) : String × String).1 = a then (a, v) else (a, b)) = (a, v)
        from by simp]
      exact lookup_cons_self a v _
    · have hk : k ≠ a := fun h => hak h.symm
      simp only [List.map_cons, if_neg hak]
      rw [lookup_cons_ne _ _ hk]
      rw [lookup_cons_ne _ _ hk] at hs
      exact ih hs

theorem lookup_map_update_ne (k v k' : String) (hne : k' ≠ k) :
    ∀ t : List (String × String),
      (t.map (fun kv => if kv.1 = k then (k, v) else kv)).lookup k' = t.lookup k' := by
  intro t
  induction t with
  | nil => rfl
  | cons q t ih =>
    obtain ⟨a, b⟩ := q
    by_cases hak : a = k
    · subst hak
      rw [List.map_cons]
      rw [show (if ((a, b) : String × String).1 = a then (a, v) else (a, b)) = (a, v)
        from by simp]
      rw [lookup_cons_ne _ _ hne, lookup_cons_ne _ _ hne]
      exact ih
    · simp only [List.map_cons, if_neg hak]
      by_cases hka : k' = a
      · subst hka
        rw [lookup_cons_self, lookup_cons_self]
      · rw [lookup_cons_ne _ _ hka, lookup_cons_ne _ _ hka]
        exact ih

theorem lookup_append_single_self (k v : String) :
    ∀ t : List (String × String), t.lookup k = none →
      (t ++ [(k, v)]).lookup k = some v := by
  intro t
  induction t with
  | nil => intro _; exact lookup_cons_self k v []
  | cons q t ih =>
    obtain ⟨a, b⟩ := q
    intro h
    by_cases hka : k = a
    · subst hka
      rw [lookup_cons_self] at h
      exact absurd h (by simp)
    · rw [List.cons_append, lookup_cons_ne _ _ hka]
      rw [lookup_cons_ne _ _ hka] at h
      exact ih h

theorem lookup_append_single_ne (k v k' : String) (hne : k' ≠ k) :
    ∀ t : List (String × String), (t ++ [(k, v)]).lookup k' = t.lookup k' := by
  intro t
  induction t with
  | nil => simpa using lookup_cons_ne v [] hne
  | cons q t ih =>
    obtain ⟨a, b⟩ := q
    by_cases hka : k' = a
    · subst hka
      rw [List.cons_append, lookup_cons_self, lookup_cons_self]
    · rw [List.cons_append, lookup_cons_ne _ _ hka, lookup_cons_ne _ _ hka]
      exact ih

theorem lookup_dictSet_self (d : List (String × String)) (k v : String) :
    (dictSet d k v).lookup k = some v := by
  unfold dictSet
  split
  next hs => exact lookup_map_update_self k v d hs
  next hs => exact lookup_append_single_self k v d (Option.not_isSome_iff_eq_none.mp hs)

theorem lookup_dictSet_ne (d : List (String × String)) (k v k' : String)
    (hne : k' ≠ k) : (dictSet d k v).lookup k' = d.lookup k' := by
  unfold dictSet
  split
  · exact lookup_map_update_ne k v k' hne d
  · exact lookup_append_single_ne k v k' hne d

theorem quality_ne_hls (s : String) : "Quality " ++ s ≠ "HLS Playlist" := by
  intro h
  have hd := congrArg String.data h
  rw [String.data_append] at hd
  simp at hd

theorem assignLabels_lookup_hls (l : List Candidate) :
    ∀ (i : Nat) (d : List (String × String)),
      (assignLabels i d l).lookup "HLS Playlist"
        = match lastM3u8 l with
          | some c => some c.url
          | none => d.lookup "HLS Playlist" := by
  induction l with
  | nil => intro i d; rfl
  | cons c cs ih =>
    intro i d
    show (assignLabels (i + 1) (dictSet d (labelFor i c.url) c.url) cs).lookup _ = _
    rw [ih]
    cases hl : lastM3u8 cs with
    | some c' => simp [lastM3u8, hl]
    | none =>
      by_cases hm : pyIn ".m3u8" c.url
      · have hlf : labelFor i c.url = "HLS Playlist" := by simp [labelFor, hm]
        rw [hlf, lookup_dictSet_self]
        simp [lastM3u8, hl, hm]
      · have hm' : pyIn ".m3u8" c.url = false := by simpa using hm
        have hlf : labelFor i c.url = "Quality " ++ toString (i + 1) := by
          simp [labelFor, hm']
        rw [hlf, lookup_dictSet_ne _ _ _ _ (Ne.symm (quality_ne_hls _))]
        simp [lastM3u8, hl, hm']

theorem assignLabels_lookup_of_not_written (l : List Candidate) :
    ∀ (i : Nat) (d : List (String × String)) (k : String),
      (∀ j (hj : j < l.length), labelFor (i + j) (l.get ⟨j, hj⟩).url ≠ k) →
      (assignLabels i d l).lookup k = d.lookup k := by
  induction l with
  | nil => intro i d k _; rfl
  | cons c cs ih =>
    intro i d k hk
    have h0 : labelFor i c.url ≠ k := by
      have := hk 0 (by simp)
      simpa using this
    show (assignLabels (i + 1) (dictSet d (labelFor i c.url) c.url) cs).lookup k = _
    rw [ih (i + 1) _ k ?_]
    · exact lookup_dictSet_ne _ _ _ _ (fun h => h0 h.symm)
    · intro j hj
      have := hk (j + 1) (by simpa using Nat.succ_lt_succ hj)
      simpa [Nat.add_assoc, Nat.add_comm, Nat.add_left_comm] using this

theorem assignLabels_lookup_get (l : List Candidate) :
    ∀ (i : Nat) (d : List (String × String)) (j : Nat) (hj : j < l.length),
      (∀ j' (hj' : j' < l.length), j < j' →
          labelFor (i + j') (l.get ⟨j', hj'⟩).url ≠ labelFor (i + j) (l.get ⟨j, hj⟩).url) →
      (assignLabels i d l).lookup (labelFor (i + j) (l.get ⟨j, hj⟩).url)
        = some (l.get ⟨j, hj⟩).url := by
  induction l with
  | nil => intro i d j hj; simp at hj
  | cons c cs ih =>
    intro i d j hj huniq
    cases j with
    | zero =>
      show (assignLabels (i + 1) (dictSet d (labelFor i c.url) c.url) cs).lookup _ = _
      rw [assignLabels_lookup_of_not_written cs (i + 1) _ _ ?_]
      · simpa using lookup_dictSet_self d (labelFor i c.url) c.url
      · intro j' hj'
        have := huniq (j' + 1) (by simpa using Nat.succ_lt_succ hj') (Nat.succ_pos j')
        simpa [Nat.add_assoc, Nat.add_comm, Nat.add_left_comm] using this
    | succ j =>
      show (assignLabels (i + 1) (dictSet d (labelFor i c.url) c.url) cs).lookup _ = _
      have key := ih (i + 1) (dictSet d (labelFor i c.url) c.url) j
        (by simpa using Nat.lt_of_succ_lt_succ hj) ?_
      · simpa [Nat.add_assoc, Nat.add_comm, Nat.add_left_comm] using key
      · intro j' hj' hjj'
        have := huniq (j' + 1) (by simpa using Nat.succ_lt_succ hj')
          (Nat.succ_lt_succ hjj')
        simpa [Nat.add_assoc, Nat.add_comm, Nat.add_left_comm] using this

theorem removeWWW_sublist (l : List Char) : (removeWWW l).Sublist l := by
  induction l using removeWWW.induct with
  | case1 rest ih =>
    rw [removeWWW.eq_1]
    exact (((ih.cons _).cons _).cons _).cons _
  | case2 c rest h ih =>
    rw [removeWWW.eq_2 c rest h]
    exact ih.cons₂ c
  | case3 => simp [removeWWW]

theorem foldl_handle_response_filter (rs : List NetResponse) :
    ∀ acc : List Candidate,
      rs.foldl handle_response acc = (rs.filter isCandidate).foldl handle_response acc := by
  induction rs with
  | nil => intro acc; rfl
  | cons r rs ih =>
    intro acc
    by_cases hc : isCandidate r
    · rw [List.filter_cons_of_pos (by simpa using hc)]
      simp only [List.foldl_cons]
      exact ih _
    · rw [List.filter_cons_of_neg (by simpa using hc)]
      simp only [List.foldl_cons]
      rw [show handle_response acc r = acc from by simp [handle_response, hc]]
      exact ih acc

theorem mem_assignLabels (l : List Candidate) :
    ∀ (i : Nat) (d : List (String × String)) (p : String × String),
      p ∈ assignLabels i d l → p ∈ d ∨ ∃ c ∈ l, p.2 = c.url := by
  induction l with
  | nil => intro i d p h; exact Or.inl h
  | cons c cs ih =>
    intro i d p h
    rcases ih (i + 1) _ p h with h' | ⟨c', hc', hp⟩
    · rcases mem_dictSet h' with h'' | h''
      · exact Or.inl h''
      · right; exact ⟨c, by simp, by simp [h'']⟩
    · right; exact ⟨c', by simp [hc'], hp⟩

/-! ## Claim theorems -/

/-- C1: the claim states that every registry entry, including the one for
`"mixkit.co"`, references a defined extractor function.  The code binds
`"mixkit.co"` to the name `scrape_mixkit_direct`, which no definition in
the module provides (importing the module raises `NameError`): the
registry lookup for `"mixkit.co"` yields a name outside the set of
defined extractors. -/
theorem C1_mixkit_entry_references_undefined_function :
    STRATEGY_MAP.lookup "mixkit.co" = some "scrape_mixkit_direct" ∧
    "scrape_mixkit_direct" ∉ definedExtractors := by
  decide

/-- C2: the claim states that an extractor result with empty qualities is
rejected as the no-content condition with a client-visible status distinct
from the generic extraction failure.  The code raises
`HTTPException(404, ...)` inside the `try` whose `except Exception as e`
re-raises `HTTPException(500, str(e))`, so the empty-qualities rejection
reaches the client as a 500 — the same status as a raising extractor. -/
theorem C2_empty_qualities_status_not_distinct :
    scrape_manager "https://xhamster.com/videos/clip"
        (fun _ _ => .ok ⟨"T", [], none⟩)
      = .err 500 "404: Scraping finished, but no quality links were found." ∧
    scrape_manager "https://xhamster.com/videos/clip"
        (fun _ _ => .error "boom")
      = .err 500 "boom" := by
  decide

/-- C3 counterexample: the code's lookup key is
`urlparse(url).netloc.replace("www.", "")` — it removes *every*
occurrence of `"www."`, case-sensitively, and never lowercases — so it
differs from the spec identity (lowercased hostname, leading `www.` only)
both on a host with a non-leading `www.` and on an uppercase host. -/
theorem C3_counterexample_key_differs_from_spec :
    scrape_domain "http://download.www.mixkit.co/video" = .ok "download.mixkit.co" ∧
    claim_site_identity "http://download.www.mixkit.co/video"
      = .ok "download.www.mixkit.co" ∧
    scrape_domain "http://download.www.mixkit.co/video"
      ≠ claim_site_identity "http://download.www.mixkit.co/video" ∧
    scrape_domain "http://WWW.Mixkit.co/video" = .ok "WWW.Mixkit.co" ∧
    claim_site_identity "http://WWW.Mixkit.co/video" = .ok "mixkit.co" ∧
    scrape_domain "http://WWW.Mixkit.co/video"
      ≠ claim_site_identity "http://WWW.Mixkit.co/video" := by
  decide

/-- C3 amended: the registry key equals the URL's netloc with every
occurrence of the substring `"www."` removed left to right; the letter
case of the hostname is preserved (the key is always a sublist of the
netloc's characters — no character is ever rewritten). -/
theorem C3_amended_key_is_netloc_without_www :
    (∀ url n, pyNetloc url = .ok n →
        scrape_domain url = .ok (String.mk (removeWWW n.toList))) ∧
    (∀ l : List Char, (removeWWW l).Sublist l) := by
  constructor
  · intro url n h
    unfold scrape_domain
    rw [h]
    rfl
  · exact removeWWW_sublist

/-- Witness for C3 amended at a concrete URL. -/
theorem C3_amended_key_is_netloc_without_www_witness :
    scrape_domain "http://download.www.mixkit.co/video"
      = .ok (String.mk (removeWWW "download.www.mixkit.co".toList)) :=
  C3_amended_key_is_netloc_without_www.1
    "http://download.www.mixkit.co/video" "download.www.mixkit.co" (by decide)

/-- C4: the ranking step sorts captured candidates by descending declared
size and keeps at most the top 3; every stored candidate exceeds the
100000-byte threshold (absent or unparsable content-length is never
stored), every result URL comes from a stored candidate, and on the
50000/150000/500000 scenario the result is exactly the two above-threshold
entries in descending size order. -/
theorem C4_threshold_sort_top3 :
    (∀ (rs : List NetResponse) (c : Candidate),
        c ∈ captureResponses rs → 100000 < c.size) ∧
    (∀ vrs : List Candidate,
        ((sortDescBySize vrs).take 3).Pairwise (fun a b => b.size ≤ a.size) ∧
        ((sortDescBySize vrs).take 3).length ≤ 3) ∧
    (∀ (rs : List NetResponse) (p : String × String),
        p ∈ playwrightQualities rs →
          ∃ c, c ∈ captureResponses rs ∧ p.2 = c.url ∧ 100000 < c.size) ∧
    (∀ rs : List NetResponse, (playwrightQualities rs).length ≤ 3) ∧
    playwrightQualities c4Scenario
      = [("Quality 1", "https://cdn.example/big.mp4"),
         ("Quality 2", "https://cdn.example/mid.mp4")] := by
  refine ⟨?_, ?_, ?_, ?_, by decide⟩
  · intro rs c h
    exact captureResponses_size h
  · intro vrs
    refine ⟨(pairwise_sortDescBySize vrs).sublist (List.take_sublist 3 _), ?_⟩
    exact List.length_take_le 3 (sortDescBySize vrs)
  · intro rs p hp
    rcases mem_assignLabels _ 0 [] p hp with h0 | ⟨c, hc, hp2⟩
    · simp at h0
    · have hc' : c ∈ captureResponses rs :=
        mem_sortDescBySize (List.mem_of_mem_take hc)
      exact ⟨c, hc', hp2, captureResponses_size hc'⟩
  · intro rs
    have h1 := length_assignLabels
      ((sortDescBySize (captureResponses rs)).take 3) 0 []
    have h2 : ((sortDescBySize (captureResponses rs)).take 3).length ≤ 3 := by
      exact List.length_take_le 3 (sortDescBySize (captureResponses rs))
    simp only [playwrightQualities, rankCandidates] at h1 ⊢
    simp at h1
    omega

/-- Witness for C4 at the concrete scenario: the 500000-byte candidate is
stored and the first result entry traces back to a stored above-threshold
candidate. -/
theorem C4_threshold_sort_top3_witness :
    100000 < (Candidate.mk "https://cdn.example/big.mp4" 500000).size ∧
    (∃ c, c ∈ captureResponses c4Scenario ∧
      (("Quality 1", "https://cdn.example/big.mp4") : String × String).2 = c.url ∧
      100000 < c.size) :=
  ⟨C4_threshold_sort_top3.1 c4Scenario ⟨"https://cdn.example/big.mp4", 500000⟩
      (by decide),
   C4_threshold_sort_top3.2.2.1 c4Scenario
      ("Quality 1", "https://cdn.example/big.mp4") (by decide)⟩

/-- C5 counterexample: with two selected playlist candidates (sizes
500000 and 200000), the larger one is selected at rank 1 and its URL
contains `.m3u8`, yet the final mapping does not contain its URL at all:
the later playlist candidate overwrote the shared `"HLS Playlist"` key. -/
theorem C5_counterexample_duplicate_playlist_label :
    ((sortDescBySize (captureResponses c5Responses)).take 3).map Candidate.url
      = ["https://cdn.example/alpha.m3u8", "https://cdn.example/beta.m3u8"] ∧
    pyIn ".m3u8" "https://cdn.example/alpha.m3u8" = true ∧
    playwrightQualities c5Responses
      = [("HLS Playlist", "https://cdn.example/beta.m3u8")] ∧
    (∀ p ∈ playwrightQualities c5Responses,
        p.2 ≠ "https://cdn.example/alpha.m3u8") := by
  decide

/-- C5 amended: each selected candidate's URL is written under
`"HLS Playlist"` when it contains `.m3u8` and under its rank label
otherwise, and writes to the same label overwrite: the mapping holds each
rank label's candidate URL, and under `"HLS Playlist"` the URL of the
*last-ranked* selected playlist candidate. -/
theorem C5_amended_last_playlist_candidate_wins (vrs : List Candidate) :
    (∀ i (h : i < ((sortDescBySize vrs).take 3).length),
        pyIn ".m3u8" (((sortDescBySize vrs).take 3).get ⟨i, h⟩).url = false →
        (rankCandidates vrs).lookup ("Quality " ++ toString (i + 1))
          = some (((sortDescBySize vrs).take 3).get ⟨i, h⟩).url) ∧
    (rankCandidates vrs).lookup "HLS Playlist"
      = match lastM3u8 ((sortDescBySize vrs).take 3) with
        | some c => some c.url
        | none => none := by
  constructor
  · intro i h hm
    have hlen : ((sortDescBySize vrs).take 3).length ≤ 3 := by
      exact List.length_take_le 3 (sortDescBySize vrs)
    have hlab : labelFor (0 + i) (((sortDescBySize vrs).take 3).get ⟨i, h⟩).url
        = "Quality " ++ toString (i + 1) := by
      simp only [labelFor, hm]
      simp
    unfold rankCandidates
    rw [← hlab]
    apply assignLabels_lookup_get
    intro j' hj' hij'
    rw [hlab]
    by_cases hmj : pyIn ".m3u8" (((sortDescBySize vrs).take 3).get ⟨j', hj'⟩).url
    · have : labelFor (0 + j') (((sortDescBySize vrs).take 3).get ⟨j', hj'⟩).url
          = "HLS Playlist" := by
        simp only [labelFor, hmj]
        simp
      rw [this]
      exact fun hh => quality_ne_hls _ hh.symm
    · have hmj' : pyIn ".m3u8" (((sortDescBySize vrs).take 3).get ⟨j', hj'⟩).url
          = false := by simpa using hmj
      have : labelFor (0 + j') (((sortDescBySize vrs).take 3).get ⟨j', hj'⟩).url
          = "Quality " ++ toString (j' + 1) := by
        simp only [labelFor, hmj']
        simp
      rw [this]
      have hi3 : i < 3 := lt_of_lt_of_le h hlen
      have hj3 : j' < 3 := lt_of_lt_of_le hj' hlen
      interval_cases i <;> interval_cases j' <;> first | omega | decide
  · unfold rankCandidates
    rw [assignLabels_lookup_hls]
    cases lastM3u8 ((sortDescBySize vrs).take 3) <;> rfl

/-- Witness for C5 amended: a single non-playlist candidate is found
under `"Quality 1"`. -/
theorem C5_amended_last_playlist_candidate_wins_witness :
    (rankCandidates [⟨"https://cdn.example/solo.mp4", 300000⟩]).lookup "Quality 1"
      = some "https://cdn.example/solo.mp4" := by
  have h := (C5_amended_last_playlist_candidate_wins
      [⟨"https://cdn.example/solo.mp4", 300000⟩]).1 0 (by decide) (by decide)
  simpa using h

/-- C6 counterexample: the claim states that every static extractor
returns (does not raise) on a page missing the expected pattern, but
`scrape_xhamster_direct` raises `ValueError` when the JSON-LD script
block is absent. -/
theorem C6_counterexample_xhamster_raises_on_missing_block :
    scrape_xhamster_direct "<html><body>no data</body></html>" (fun _ => .ok [])
      = .error "Could not find video JSON-LD data in the page." := by
  decide

/-- C6 amended: the xvideos extractor returns on every body, with title
falling back to `"Untitled Video"`, thumbnail to `""` and qualities to
the empty mapping when the corresponding pattern is absent; the xhamster
extractor instead *raises* when the JSON-LD block is absent, and falls
back to `"Untitled"` / `""` / empty qualities only when the block parses
but lacks the fields. -/
theorem C6_amended_fallbacks_except_xhamster_block :
    (∀ html : String, pySearchGroup xvTitlePat "');" html = none →
        (scrape_xvideos_direct html).title = "Untitled Video") ∧
    (∀ html : String, pySearchGroup xvThumbPat "');" html = none →
        (scrape_xvideos_direct html).thumbnail = some "") ∧
    (∀ html : String, pySearchGroup xvHlsPat "');" html = none →
        (scrape_xvideos_direct html).qualities = []) ∧
    (∀ (html : String) (loads : String → Except String (List (String × String))),
        pySearchGroup xhJsonPat "</script>" html = none →
        scrape_xhamster_direct html loads
          = .error "Could not find video JSON-LD data in the page.") ∧
    (∀ (html g : String) (loads : String → Except String (List (String × String)))
        (data : List (String × String)),
        pySearchGroup xhJsonPat "</script>" html = some g →
        loads g = .ok data →
        data.lookup "name" = none → data.lookup "thumbnailUrl" = none →
        data.lookup "contentUrl" = none →
        scrape_xhamster_direct html loads = .ok ⟨"Untitled", [], some ""⟩) := by
  refine ⟨?_, ?_, ?_, ?_, ?_⟩
  · intro html h
    simp [scrape_xvideos_direct, h]
  · intro html h
    simp [scrape_xvideos_direct, h]
  · intro html h
    simp [scrape_xvideos_direct, h]
  · intro html loads h
    simp [scrape_xhamster_direct, h]
  · intro html g loads data hg hl hn ht hc
    simp [scrape_xhamster_direct, hg, hl, hn, ht, hc]

/-- Witness for C6 amended at concrete bodies: the empty page for the
absent-pattern conjuncts and a minimal JSON-LD page with an empty parsed
object for the absent-fields conjunct. -/
theorem C6_amended_fallbacks_except_xhamster_block_witness :
    (scrape_xvideos_direct "").title = "Untitled Video" ∧
    (scrape_xvideos_direct "").thumbnail = some "" ∧
    (scrape_xvideos_direct "").qualities = [] ∧
    scrape_xhamster_direct "" (fun _ => .ok [])
      = .error "Could not find video JSON-LD data in the page." ∧
    scrape_xhamster_direct "<script type=\"application/ld+json\">x</script>"
        (fun _ => .ok [])
      = .ok ⟨"Untitled", [], some ""⟩ :=
  ⟨C6_amended_fallbacks_except_xhamster_block.1 "" (by decide),
   C6_amended_fallbacks_except_xhamster_block.2.1 "" (by decide),
   C6_amended_fallbacks_except_xhamster_block.2.2.1 "" (by decide),
   C6_amended_fallbacks_except_xhamster_block.2.2.2.1 "" (fun _ => .ok []) (by decide),
   C6_amended_fallbacks_except_xhamster_block.2.2.2.2
     "<script type=\"application/ld+json\">x</script>" "x" (fun _ => .ok [])
     [] (by decide) (by decide) (by decide) (by decide) (by decide)⟩

/-- C7 counterexample: the claim states that a response with declared
content type `application/octet-stream` and no media extension in its URL
is a candidate; the code tests for the substring `binary/octet-stream`,
so such a response is not a candidate. -/
theorem C7_counterexample_application_octet_stream_not_candidate :
    isCandidate ⟨"https://host.example/file", "application/octet-stream", none⟩
      = false ∧
    pyIn ".mp4" "https://host.example/file" = false ∧
    pyIn ".m3u8" "https://host.example/file" = false ∧
    pyIn ".webm" "https://host.example/file" = false := by
  decide

/-- C7 amended: a response is a media candidate iff its URL contains
`.mp4`, `.m3u8` or `.webm`, or its lowercased content type contains
`video`, `mpegurl` or `binary/octet-stream` (not
`application/octet-stream`); non-candidates are never stored — filtering
them out of the event stream leaves the capture list unchanged. -/
theorem C7_amended_candidate_test_binary_octet_stream :
    (∀ r : NetResponse, isCandidate r
        = ((pyIn ".mp4" r.url || pyIn ".m3u8" r.url || pyIn ".webm" r.url)
            || (pyIn "video" (lowerStr r.contentType)
                || pyIn "mpegurl" (lowerStr r.contentType)
                || pyIn "binary/octet-stream" (lowerStr r.contentType)))) ∧
    (∀ rs : List NetResponse,
        captureResponses rs = captureResponses (rs.filter isCandidate)) ∧
    isCandidate ⟨"https://host.example/file", "binary/octet-stream", none⟩
      = true := by
  refine ⟨fun r => rfl, ?_, by decide⟩
  intro rs
  unfold captureResponses
  exact foldl_handle_response_filter rs []

/-- C8 counterexample: `"not a url"` is malformed (it still contains a
space after the parser's own pre-cleaning), yet the endpoint reports the
UnsupportedSite condition for the empty host — status 404, not the 400
InvalidInput the claim requires. -/
theorem C8_counterexample_malformed_url_gets_unsupported_site :
    malformedUrl "not a url" = true ∧
    scrape_manager "not a url" (fun _ _ => .error "unused")
      = .err 404 ("Website " ++ sq ++ sq ++ " is not supported yet.") ∧
    scrape_manager "not a url" (fun _ _ => .error "unused")
      ≠ .err 400 "Invalid URL format." := by
  decide

/-- C8 amended: the InvalidInput (400) condition is returned exactly when
the URL parser itself raises — i.e. the authority has an unmatched square
bracket; every other input, however malformed, parses to a (possibly
empty) host that flows to the registry lookup, yielding UnsupportedSite
when absent. -/
theorem C8_amended_invalid_input_iff_parser_raises
    (url : String) (run : String → String → Except String ScrapeResult) :
    (∃ e, pyNetloc url = .error e) ↔
      scrape_manager url run = .err 400 "Invalid URL format." := by
  constructor
  · rintro ⟨e, he⟩
    unfold scrape_manager scrape_domain
    rw [he]
    rfl
  · intro h
    unfold scrape_manager at h
    split at h
    next e heq =>
      unfold scrape_domain at heq
      cases hn : pyNetloc url with
      | error e2 => exact ⟨e2, rfl⟩
      | ok n =>
        rw [hn] at heq
        simp [Except.map] at heq
    next domain heq =>
      exfalso
      split at h
      next => simp at h
      next fname heq2 =>
        split at h
        next => simp at h
        next r heq3 =>
          split at h <;> simp at h

/-- Witness for C8 amended: an unmatched bracket in the authority makes
the parser raise and the endpoint answer 400. -/
theorem C8_amended_invalid_input_iff_parser_raises_witness :
    scrape_manager "http://[abc/" (fun _ _ => .error "unused")
      = .err 400 "Invalid URL format." :=
  (C8_amended_invalid_input_iff_parser_raises "http://[abc/"
      (fun _ _ => .error "unused")).mp ⟨"Invalid IPv6 URL", by decide⟩

/-- C9: on every execution path of the interception extractor — goto
failure, success with or without a successful click, and the
zero-candidates outcome — the per-request page and context are each
closed exactly once before the call returns or raises. -/
theorem C9_page_and_context_closed_exactly_once (env : PWEnv) :
    (advanced_playwright_scraper env).2
      = { pageCloses := 1, contextCloses := 1 } := by
  unfold advanced_playwright_scraper tryFin
  cases env.gotoResult with
  | error e => rfl
  | ok u =>
    dsimp only
    split <;> rfl

/-- C10 counterexample: an interleaved schedule of two cold-start
`get_browser()` calls in which both calls pass the `browser is None`
check before either assigns the global: both calls run to completion,
two engines are launched, and the callers end up holding different
handles. -/
theorem C10_counterexample_interleaved_cold_start_launches_twice :
    runSched [true, false, true, true, false, false] (.entry, .entry, {})
      = (.done (some 0), .done (some 1),
         { browser := some 1, launches := 2, nextId := 2 }) := by
  decide

/-- C10 amended: the launch path is unguarded, so exactly-one-launch
holds only when the two cold-start calls are serialized: the first call
runs to completion and the second then observes the cached connected
handle, returning the same engine with a single launch. -/
theorem C10_amended_serialized_cold_start_launches_once :
    runSched [true, true, true, false] (.entry, .entry, {})
      = (.done (some 0), .done (some 0),
         { browser := some 0, launches := 1, nextId := 1 }) := by
  decide

end App


